import Mathlib

/-!
Verification of the schema-translation and resource-handler logic of the
apache/iceberg-terraform provider.

The Go sources are embedded shallowly:

* `IcebergType` / `NestedField` model the `iceberg.Type` / `iceberg.NestedField`
  values of the github.com/apache/iceberg-go library, together with the
  library `String()` rendering of each type (`typeString`).
* `TFValue` models a terraform-plugin-framework value (`types.String`,
  `types.Int64`, `types.Bool`, `types.Object`, `types.Map`, `types.List`),
  which is either null, unknown, or a concrete value; the `Value*` accessors
  return the zero value on null/unknown, exactly as in the framework.
  An `As`/`ElementsAs` conversion of a non-null, non-unknown object of the
  statically correct attribute type cannot fail in the framework, so the
  corresponding Go error branches are unreachable in this model.
* The conversion functions of internal/provider/table_schema.go
  (`stringToType`, `terraformToIcebergType`, `terraformToIcebergTypeFromInner`,
  `icebergToTerraformField`, `icebergToTerraformInnerField`) are translated
  line by line, with Go `(T, error)` results becoming `Except String T`.
* The regular expressions `decimalRegex` and `fixedRegex` are implemented as
  the equivalent anchored parsers `parseDecimal` and `parseFixed` over the
  character list of the input.
-/

mutual

/-- Model of `iceberg.Type` from github.com/apache/iceberg-go: the fourteen
primitive types used by the provider, the parameterized decimal and fixed
types, and the nested list, map and struct types. -/
inductive IcebergType where
  | booleanType
  | int32Type
  | int64Type
  | float32Type
  | float64Type
  | dateType
  | timeType
  | timestampType
  | timestampTzType
  | timestampNsType
  | timestampTzNsType
  | stringType
  | uuidType
  | binaryType
  | decimalType (precision scale : Int)
  | fixedType (len : Int)
  | listType (elementID : Int) (element : IcebergType) (elementRequired : Bool)
  | mapType (keyID : Int) (keyType : IcebergType) (valueID : Int) (valueType : IcebergType) (valueRequired : Bool)
  | structType (fields : List NestedField)

/-- Model of `iceberg.NestedField`: id, name, type, required flag and doc. -/
inductive NestedField where
  | mk (id : Int) (name : String) (ty : IcebergType) (required : Bool) (doc : String)

end

def NestedField.id : NestedField → Int
  | .mk i _ _ _ _ => i

def NestedField.name : NestedField → String
  | .mk _ n _ _ _ => n

def NestedField.ty : NestedField → IcebergType
  | .mk _ _ t _ _ => t

def NestedField.required : NestedField → Bool
  | .mk _ _ _ r _ => r

def NestedField.doc : NestedField → String
  | .mk _ _ _ _ d => d

mutual

/-- Depth of an iceberg type tree: primitives, decimal and fixed have depth 1,
list/map/struct add one level above their deepest component. -/
def typeDepth : IcebergType → Nat
  | .listType _ e _ => 1 + typeDepth e
  | .mapType _ k _ v _ => 1 + max (typeDepth k) (typeDepth v)
  | .structType fields => 1 + fieldsDepth fields
  | _ => 1

def fieldsDepth : List NestedField → Nat
  | [] => 0
  | .mk _ _ t _ _ :: rest => max (typeDepth t) (fieldsDepth rest)

end

mutual

/-- The `String()` rendering of an iceberg type, as implemented by
github.com/apache/iceberg-go (`decimal(p, s)` with a space after the comma,
`fixed[n]` with square brackets, `list<...>`, `map<k, v>`, `struct<...>`). -/
def typeString : IcebergType → String
  | .booleanType => "boolean"
  | .int32Type => "int"
  | .int64Type => "long"
  | .float32Type => "float"
  | .float64Type => "double"
  | .dateType => "date"
  | .timeType => "time"
  | .timestampType => "timestamp"
  | .timestampTzType => "timestamptz"
  | .timestampNsType => "timestamp_ns"
  | .timestampTzNsType => "timestamptz_ns"
  | .stringType => "string"
  | .uuidType => "uuid"
  | .binaryType => "binary"
  | .decimalType p s => "decimal(" ++ toString p ++ ", " ++ toString s ++ ")"
  | .fixedType n => "fixed[" ++ toString n ++ "]"
  | .listType _ e _ => "list<" ++ typeString e ++ ">"
  | .mapType _ k _ v _ => "map<" ++ typeString k ++ ", " ++ typeString v ++ ">"
  | .structType fields => "struct<" ++ fieldsString fields ++ ">"

def fieldsString : List NestedField → String
  | [] => ""
  | [.mk i n t _ _] => toString i ++ ": " ++ n ++ ": " ++ typeString t
  | .mk i n t _ _ :: rest => toString i ++ ": " ++ n ++ ": " ++ typeString t ++ ", " ++ fieldsString rest

end

/-- A terraform-plugin-framework attribute value: null, unknown, or a value. -/
inductive TFValue (α : Type) where
  | null
  | unknown
  | value (v : α)
deriving DecidableEq

/-- `types.String.ValueString()`: the zero value on null/unknown. -/
def TFValue.valueString : TFValue String → String
  | .value s => s
  | _ => ""

/-- `types.Int64.ValueInt64()`: the zero value on null/unknown. -/
def TFValue.valueInt64 : TFValue Int → Int
  | .value n => n
  | _ => 0

/-- `types.Bool.ValueBool()`: the zero value on null/unknown. -/
def TFValue.valueBool : TFValue Bool → Bool
  | .value b => b
  | _ => false

/-- Model of `icebergTableSchemaFieldDecimalProperties`. -/
structure icebergTableSchemaFieldDecimalProperties where
  precision : TFValue Int
  scale : TFValue Int

/-- Model of `icebergTableSchemaFieldFixedProperties`. -/
structure icebergTableSchemaFieldFixedProperties where
  length : TFValue Int

/-- Model of `icebergTableSchemaFieldListProperties`. -/
structure icebergTableSchemaFieldListProperties where
  elementID : TFValue Int
  elementType : TFValue String
  elementRequired : TFValue Bool

/-- Model of `icebergTableSchemaFieldMapProperties`. -/
structure icebergTableSchemaFieldMapProperties where
  keyID : TFValue Int
  keyType : TFValue String
  valueID : TFValue Int
  valueType : TFValue String
  valueRequired : TFValue Bool

/-- Model of `icebergTableSchemaInnerField` (table_schema.go): a struct member
field; it has decimal/fixed/list/map properties but no struct properties. -/
structure icebergTableSchemaInnerField where
  id : TFValue Int
  name : TFValue String
  type : TFValue String
  required : TFValue Bool
  doc : TFValue String
  decimalProperties : TFValue icebergTableSchemaFieldDecimalProperties
  fixedProperties : TFValue icebergTableSchemaFieldFixedProperties
  listProperties : TFValue icebergTableSchemaFieldListProperties
  mapProperties : TFValue icebergTableSchemaFieldMapProperties

/-- Model of `icebergTableSchemaFieldStructProperties`: a `types.List` of
inner-field objects. -/
structure icebergTableSchemaFieldStructProperties where
  fields : TFValue (List icebergTableSchemaInnerField)

/-- Model of `icebergTableSchemaField` (table_schema.go): a top-level field of
the terraform schema representation. -/
structure icebergTableSchemaField where
  id : TFValue Int
  name : TFValue String
  type : TFValue String
  required : TFValue Bool
  doc : TFValue String
  decimalProperties : TFValue icebergTableSchemaFieldDecimalProperties
  fixedProperties : TFValue icebergTableSchemaFieldFixedProperties
  listProperties : TFValue icebergTableSchemaFieldListProperties
  mapProperties : TFValue icebergTableSchemaFieldMapProperties
  structProperties : TFValue icebergTableSchemaFieldStructProperties

/-- RE2 `\s`: the five whitespace characters tab, newline, form feed,
carriage return and space. -/
def goSpaceChar (c : Char) : Bool :=
  c = ' ' || c = '\t' || c = '\n' || c = '\x0c' || c = '\r'

/-- Consume an expected literal prefix; `some rest` exactly when the input is
the prefix followed by `rest`. -/
def dropExpected : List Char → List Char → Option (List Char)
  | [], cs => some cs
  | _ :: _, [] => none
  | e :: es, c :: cs => if c = e then dropExpected es cs else none

/-- The anchored pattern of `decimalRegex`, `^decimal\((\d+),\s*(\d+)\)$`,
as a parser returning the two digit groups. -/
def parseDecimal (cs : List Char) : Option (List Char × List Char) :=
  match dropExpected ( "decimal(".data ) cs with
  | none => none
  | some rest =>
    let d1 := rest.takeWhile Char.isDigit
    let r1 := rest.dropWhile Char.isDigit
    if d1 = [] then none
    else
      match r1 with
      | [] => none
      | c1 :: r2 =>
        if c1 = ',' then
          let r3 := r2.dropWhile goSpaceChar
          let d2 := r3.takeWhile Char.isDigit
          let r4 := r3.dropWhile Char.isDigit
          if d2 = [] then none
          else if r4 = [ ')' ] then some (d1, d2) else none
        else none

/-- The anchored pattern of `fixedRegex`, `^fixed\((\d+)\)$`, as a parser
returning the digit group. -/
def parseFixed (cs : List Char) : Option (List Char) :=
  match dropExpected ( "fixed(".data ) cs with
  | none => none
  | some rest =>
    let d1 := rest.takeWhile Char.isDigit
    let r1 := rest.dropWhile Char.isDigit
    if d1 = [] then none
    else if r1 = [ ')' ] then some d1 else none

/-- Numeric value of a digit string. -/
def digitsToNat (cs : List Char) : Nat :=
  cs.foldl (fun n c => 10 * n + (c.toNat - 48)) 0

def maxInt64 : Int := 9223372036854775807

/-- `strconv.Atoi` on an all-digit string with the error discarded, as in
`stringToType`: the numeric value, saturated at the int64 maximum when the
value is out of range (Go returns the clamped value together with
`ErrRange`, and the caller ignores the error). -/
def goAtoi (cs : List Char) : Int :=
  if (digitsToNat cs : Int) > maxInt64 then maxInt64 else (digitsToNat cs : Int)

/-- The fourteen primitive type names of the `stringToType` switch, in source
order, paired with the iceberg type each returns. -/
def primitiveTypes : List (String × IcebergType) :=
  [ ( "boolean", .booleanType ),
    ( "int", .int32Type ),
    ( "long", .int64Type ),
    ( "float", .float32Type ),
    ( "double", .float64Type ),
    ( "date", .dateType ),
    ( "time", .timeType ),
    ( "timestamp", .timestampType ),
    ( "timestamptz", .timestampTzType ),
    ( "timestamp_ns", .timestampNsType ),
    ( "timestamptz_ns", .timestampTzNsType ),
    ( "string", .stringType ),
    ( "uuid", .uuidType ),
    ( "binary", .binaryType ) ]

/-- The `switch` of `stringToType`: sequential comparison against the
fourteen primitive names. -/
def lookupPrimitive (cs : List Char) : Option IcebergType :=
  (primitiveTypes.find? (fun nt => decide (nt.fst.data = cs))).map Prod.snd

/-- Model of `stringToType` (table_schema.go): the fourteen primitive names,
then the decimal pattern, then the fixed pattern, otherwise an error. -/
def stringToType (s : String) : Except String IcebergType :=
  match lookupPrimitive s.data with
  | some t => .ok t
  | none =>
    match parseDecimal s.data with
    | some (p, q) => .ok (.decimalType (goAtoi p) (goAtoi q))
    | none =>
      match parseFixed s.data with
      | some n => .ok (.fixedType (goAtoi n))
      | none => .error ( "unsupported type: " ++ s)


/-- Model of `terraformToIcebergTypeFromInner` (table_schema.go): converts a
struct member field; a nested `struct` is rejected. -/
def terraformToIcebergTypeFromInner (field : icebergTableSchemaInnerField) : Except String IcebergType :=
  let typeStr := field.type.valueString
  if typeStr = "list" then
    match field.listProperties with
    | .null => .error ( "list_properties must be set for list type" )
    | .unknown => .error ( "list_properties must be set for list type" )
    | .value listProps =>
      match stringToType listProps.elementType.valueString with
      | .error e => .error e
      | .ok elemType =>
        .ok (.listType listProps.elementID.valueInt64 elemType listProps.elementRequired.valueBool)
  else if typeStr = "map" then
    match field.mapProperties with
    | .null => .error ( "map_properties must be set for map type" )
    | .unknown => .error ( "map_properties must be set for map type" )
    | .value mapProps =>
      match stringToType mapProps.keyType.valueString with
      | .error e => .error e
      | .ok keyType =>
        match stringToType mapProps.valueType.valueString with
        | .error e => .error e
        | .ok valueType =>
          .ok (.mapType mapProps.keyID.valueInt64 keyType mapProps.valueID.valueInt64 valueType
            mapProps.valueRequired.valueBool)
  else if typeStr = "struct" then
    .error ( "nested structs are not supported in this version" )
  else if typeStr = "decimal" then
    match field.decimalProperties with
    | .null => .error ( "decimal_properties must be set for decimal type" )
    | .unknown => .error ( "decimal_properties must be set for decimal type" )
    | .value decProps =>
      .ok (.decimalType decProps.precision.valueInt64 decProps.scale.valueInt64)
  else if typeStr = "fixed" then
    match field.fixedProperties with
    | .null => .error ( "fixed_properties must be set for fixed type" )
    | .unknown => .error ( "fixed_properties must be set for fixed type" )
    | .value fixedProps =>
      .ok (.fixedType fixedProps.length.valueInt64)
  else
    stringToType typeStr

/-- The loop of the `struct` case of `terraformToIcebergType`: converts the
struct member fields in order, aborting at the first error. -/
def innerFieldsToNested : List icebergTableSchemaInnerField → Except String (List NestedField)
  | [] => .ok []
  | f :: rest =>
    match terraformToIcebergTypeFromInner f with
    | .error e => .error e
    | .ok t =>
      match innerFieldsToNested rest with
      | .error e => .error e
      | .ok ns =>
        .ok (.mk f.id.valueInt64 f.name.valueString t f.required.valueBool f.doc.valueString :: ns)

/-- Model of `terraformToIcebergType` (table_schema.go): converts a top-level
terraform field to an iceberg type. -/
def terraformToIcebergType (field : icebergTableSchemaField) : Except String IcebergType :=
  let typeStr := field.type.valueString
  if typeStr = "list" then
    match field.listProperties with
    | .null => .error ( "list_properties must be set for list type" )
    | .unknown => .error ( "list_properties must be set for list type" )
    | .value listProps =>
      match stringToType listProps.elementType.valueString with
      | .error e => .error e
      | .ok elemType =>
        .ok (.listType listProps.elementID.valueInt64 elemType listProps.elementRequired.valueBool)
  else if typeStr = "map" then
    match field.mapProperties with
    | .null => .error ( "map_properties must be set for map type" )
    | .unknown => .error ( "map_properties must be set for map type" )
    | .value mapProps =>
      match stringToType mapProps.keyType.valueString with
      | .error e => .error e
      | .ok keyType =>
        match stringToType mapProps.valueType.valueString with
        | .error e => .error e
        | .ok valueType =>
          .ok (.mapType mapProps.keyID.valueInt64 keyType mapProps.valueID.valueInt64 valueType
            mapProps.valueRequired.valueBool)
  else if typeStr = "struct" then
    match field.structProperties with
    | .null => .error ( "struct_properties must be set for struct type" )
    | .unknown => .error ( "struct_properties must be set for struct type" )
    | .value structProps =>
      match structProps.fields with
      | .null => .error ( "failed to parse struct fields" )
      | .unknown => .error ( "failed to parse struct fields" )
      | .value innerFields =>
        match innerFieldsToNested innerFields with
        | .error e => .error e
        | .ok nestedFields => .ok (.structType nestedFields)
  else if typeStr = "decimal" then
    match field.decimalProperties with
    | .null => .error ( "decimal_properties must be set for decimal type" )
    | .unknown => .error ( "decimal_properties must be set for decimal type" )
    | .value decProps =>
      .ok (.decimalType decProps.precision.valueInt64 decProps.scale.valueInt64)
  else if typeStr = "fixed" then
    match field.fixedProperties with
    | .null => .error ( "fixed_properties must be set for fixed type" )
    | .unknown => .error ( "fixed_properties must be set for fixed type" )
    | .value fixedProps =>
      .ok (.fixedType fixedProps.length.valueInt64)
  else
    stringToType typeStr

/-- Model of `typeToString` (table_schema.go): the library rendering, never an
error. -/
def typeToString (t : IcebergType) : Except String String :=
  .ok (typeString t)

/-- Model of `icebergToTerraformInnerField` (table_schema.go): renders an
iceberg struct member field back to the terraform inner-field representation;
a nested struct is rejected. -/
def icebergToTerraformInnerField (field : NestedField) : Except String icebergTableSchemaInnerField :=
  match field with
  | .mk id name ty required doc =>
    let docVal : TFValue String := if doc = "" then .null else .value doc
    let base : icebergTableSchemaInnerField :=
      { id := .value id, name := .value name, type := .value (typeString ty),
        required := .value required, doc := docVal,
        decimalProperties := .null, fixedProperties := .null,
        listProperties := .null, mapProperties := .null }
    match ty with
    | .decimalType p s =>
      .ok { base with
        type := .value ( "decimal" ),
        decimalProperties := .value { precision := .value p, scale := .value s } }
    | .fixedType n =>
      .ok { base with
        type := .value ( "fixed" ),
        fixedProperties := .value { length := .value n } }
    | .listType eid e ereq =>
      match typeToString e with
      | .error err => .error err
      | .ok elemTypeStr =>
        .ok { base with
          type := .value ( "list" ),
          listProperties := .value {
            elementID := .value eid,
            elementType := .value elemTypeStr,
            elementRequired := .value ereq } }
    | .mapType kid k vid v vreq =>
      match typeToString k with
      | .error err => .error err
      | .ok keyTypeStr =>
        match typeToString v with
        | .error err => .error err
        | .ok valueTypeStr =>
          .ok { base with
            type := .value ( "map" ),
            mapProperties := .value {
              keyID := .value kid,
              keyType := .value keyTypeStr,
              valueID := .value vid,
              valueType := .value valueTypeStr,
              valueRequired := .value vreq } }
    | .structType _ => .error ( "nested structs are not supported in this version" )
    | _ => .ok base

/-- The loop of the struct case of `icebergToTerraformField`: renders the
nested fields in order, aborting at the first error. -/
def nestedToInnerFields : List NestedField → Except String (List icebergTableSchemaInnerField)
  | [] => .ok []
  | f :: rest =>
    match icebergToTerraformInnerField f with
    | .error e => .error e
    | .ok f1 =>
      match nestedToInnerFields rest with
      | .error e => .error e
      | .ok fs => .ok (f1 :: fs)

/-- Model of `icebergToTerraformField` (table_schema.go): renders an iceberg
field to the terraform top-level field representation. -/
def icebergToTerraformField (field : NestedField) : Except String icebergTableSchemaField :=
  match field with
  | .mk id name ty required doc =>
    let docVal : TFValue String := if doc = "" then .null else .value doc
    let base : icebergTableSchemaField :=
      { id := .value id, name := .value name, type := .value (typeString ty),
        required := .value required, doc := docVal,
        decimalProperties := .null, fixedProperties := .null,
        listProperties := .null, mapProperties := .null, structProperties := .null }
    match ty with
    | .decimalType p s =>
      .ok { base with
        type := .value ( "decimal" ),
        decimalProperties := .value { precision := .value p, scale := .value s } }
    | .fixedType n =>
      .ok { base with
        type := .value ( "fixed" ),
        fixedProperties := .value { length := .value n } }
    | .listType eid e ereq =>
      match typeToString e with
      | .error err => .error err
      | .ok elemTypeStr =>
        .ok { base with
          type := .value ( "list" ),
          listProperties := .value {
            elementID := .value eid,
            elementType := .value elemTypeStr,
            elementRequired := .value ereq } }
    | .mapType kid k vid v vreq =>
      match typeToString k with
      | .error err => .error err
      | .ok keyTypeStr =>
        match typeToString v with
        | .error err => .error err
        | .ok valueTypeStr =>
          .ok { base with
            type := .value ( "map" ),
            mapProperties := .value {
              keyID := .value kid,
              keyType := .value keyTypeStr,
              valueID := .value vid,
              valueType := .value valueTypeStr,
              valueRequired := .value vreq } }
    | .structType nested =>
      match nestedToInnerFields nested with
      | .error e => .error e
      | .ok innerVals =>
        .ok { base with
          type := .value ( "struct" ),
          structProperties := .value { fields := .value innerVals } }
    | _ => .ok base

/-- The round trip of claim C1: render an iceberg field to the terraform
representation with `icebergToTerraformField` and convert it back with
`terraformToIcebergType`. -/
def roundTripField (nf : NestedField) : Except String IcebergType :=
  match icebergToTerraformField nf with
  | .error e => .error e
  | .ok f => terraformToIcebergType f


namespace schemaV3

/-- Model of the leaf field of the three-level schema representation
(src/unnamed/part_003, `icebergTableSchemaLeafField`): it has no
struct-properties attribute, which is what terminates the recursion. -/
structure icebergTableSchemaLeafField where
  id : TFValue Int
  name : TFValue String
  type : TFValue String
  required : TFValue Bool
  doc : TFValue String
  listProperties : TFValue icebergTableSchemaFieldListProperties
  mapProperties : TFValue icebergTableSchemaFieldMapProperties

/-- Model of `icebergTableSchemaInnerStructProperties` (part_003): a list of
leaf fields. -/
structure icebergTableSchemaInnerStructProperties where
  fields : TFValue (List icebergTableSchemaLeafField)

/-- Model of the part_003 `icebergTableSchemaInnerField`. -/
structure icebergTableSchemaInnerField where
  id : TFValue Int
  name : TFValue String
  type : TFValue String
  required : TFValue Bool
  doc : TFValue String
  listProperties : TFValue icebergTableSchemaFieldListProperties
  mapProperties : TFValue icebergTableSchemaFieldMapProperties
  structProperties : TFValue icebergTableSchemaInnerStructProperties

/-- Model of the part_003 `icebergTableSchemaFieldStructProperties`. -/
structure icebergTableSchemaFieldStructProperties where
  fields : TFValue (List icebergTableSchemaInnerField)

/-- Model of the part_003 `icebergTableSchemaField`. -/
structure icebergTableSchemaField where
  id : TFValue Int
  name : TFValue String
  type : TFValue String
  required : TFValue Bool
  doc : TFValue String
  listProperties : TFValue icebergTableSchemaFieldListProperties
  mapProperties : TFValue icebergTableSchemaFieldMapProperties
  structProperties : TFValue icebergTableSchemaFieldStructProperties

/-- Model of the part_003 `terraformToIcebergType`: list and map via the
shared property objects, struct handled by the caller, everything else via
`stringToType`. -/
def terraformToIcebergType (typeStr : String)
    (listProps : TFValue icebergTableSchemaFieldListProperties)
    (mapProps : TFValue icebergTableSchemaFieldMapProperties)
    (structProps : TFValue Unit) : Except String IcebergType :=
  if typeStr = "list" then
    match listProps with
    | .null => .error ( "list_properties must be set for list type" )
    | .unknown => .error ( "list_properties must be set for list type" )
    | .value props =>
      match stringToType props.elementType.valueString with
      | .error e => .error e
      | .ok elemType =>
        .ok (.listType props.elementID.valueInt64 elemType props.elementRequired.valueBool)
  else if typeStr = "map" then
    match mapProps with
    | .null => .error ( "map_properties must be set for map type" )
    | .unknown => .error ( "map_properties must be set for map type" )
    | .value props =>
      match stringToType props.keyType.valueString with
      | .error e => .error e
      | .ok keyType =>
        match stringToType props.valueType.valueString with
        | .error e => .error e
        | .ok valueType =>
          .ok (.mapType props.keyID.valueInt64 keyType props.valueID.valueInt64 valueType
            props.valueRequired.valueBool)
  else if typeStr = "struct" then
    .error ( "struct type handled by caller" )
  else
    stringToType typeStr

/-- Model of the part_003 `convertIcebergTableSchemaLeafField`: a struct at
the leaf level is the maximum-nesting error; the leaf field type carries no
struct properties, so the recursion stops here. -/
def convertIcebergTableSchemaLeafField (field : icebergTableSchemaLeafField) : Except String IcebergType :=
  if field.type.valueString = "struct" then
    .error ( "maximum nesting depth reached (3 levels)" )
  else
    terraformToIcebergType field.type.valueString field.listProperties field.mapProperties .null

/-- The loop of the part_003 `convertIcebergTableSchemaInnerField` over leaf
fields. -/
def leafFieldsToNested : List icebergTableSchemaLeafField → Except String (List NestedField)
  | [] => .ok []
  | f :: rest =>
    match convertIcebergTableSchemaLeafField f with
    | .error e => .error e
    | .ok t =>
      match leafFieldsToNested rest with
      | .error e => .error e
      | .ok ns =>
        .ok (.mk f.id.valueInt64 f.name.valueString t f.required.valueBool f.doc.valueString :: ns)

/-- Model of the part_003 `convertIcebergTableSchemaInnerField`. -/
def convertIcebergTableSchemaInnerField (field : icebergTableSchemaInnerField) : Except String IcebergType :=
  if field.type.valueString = "struct" then
    match field.structProperties with
    | .null => .error ( "struct_properties must be set for struct type" )
    | .unknown => .error ( "struct_properties must be set for struct type" )
    | .value structProps =>
      match structProps.fields with
      | .null => .error ( "failed to parse struct fields" )
      | .unknown => .error ( "failed to parse struct fields" )
      | .value leafFields =>
        match leafFieldsToNested leafFields with
        | .error e => .error e
        | .ok nestedFields => .ok (.structType nestedFields)
  else
    terraformToIcebergType field.type.valueString field.listProperties field.mapProperties .null

/-- The loop of the part_003 `convertIcebergTableSchemaField` over inner
fields. -/
def innerFieldsToNested : List icebergTableSchemaInnerField → Except String (List NestedField)
  | [] => .ok []
  | f :: rest =>
    match convertIcebergTableSchemaInnerField f with
    | .error e => .error e
    | .ok t =>
      match innerFieldsToNested rest with
      | .error e => .error e
      | .ok ns =>
        .ok (.mk f.id.valueInt64 f.name.valueString t f.required.valueBool f.doc.valueString :: ns)

/-- Model of the part_003 `convertIcebergTableSchemaField`. -/
def convertIcebergTableSchemaField (field : icebergTableSchemaField) : Except String IcebergType :=
  if field.type.valueString = "struct" then
    match field.structProperties with
    | .null => .error ( "struct_properties must be set for struct type" )
    | .unknown => .error ( "struct_properties must be set for struct type" )
    | .value structProps =>
      match structProps.fields with
      | .null => .error ( "failed to parse struct fields" )
      | .unknown => .error ( "failed to parse struct fields" )
      | .value innerFields =>
        match innerFieldsToNested innerFields with
        | .error e => .error e
        | .ok nestedFields => .ok (.structType nestedFields)
  else
    terraformToIcebergType field.type.valueString field.listProperties field.mapProperties .null

end schemaV3

/-- Errors produced by `polarisClient.do` (polaris_client.go): the dedicated
not-found error for a 404 response, the generic unexpected-status error, a
transport failure, and a response-decoding failure. -/
inductive polarisError where
  | notFound (method path : String)
  | unexpectedStatus (code : Int) (body : String)
  | transport (msg : String)
  | decodeFailure (msg : String)
deriving DecidableEq

/-- Model of `isPolarisNotFoundError`: `errors.As` against
`*polarisNotFoundError`; only the 404 branch of `do` produces that type, and
no branch wraps it, so the check is exactly a match on the constructor. -/
def isPolarisNotFoundError : polarisError → Bool
  | .notFound _ _ => true
  | _ => false

/-- The `Error()` text of each modelled polaris error. -/
def polarisErrorText : polarisError → String
  | .notFound method path => "polaris: not found ( " ++ method ++ " ) " ++ path
  | .unexpectedStatus code body => "polaris: unexpected status ( " ++ toString code ++ " ): " ++ body
  | .transport msg => msg
  | .decodeFailure msg => msg

/-- An HTTP response as seen by `polarisClient.do`. -/
structure httpResponse where
  statusCode : Int
  body : String

/-- The outcome of `httpClient.Do`: a transport error or a response. -/
inductive httpOutcome where
  | failure (msg : String)
  | success (resp : httpResponse)

/-- Model of `polarisClient.do` (polaris_client.go) from the point where the
HTTP round trip completes: a 404 becomes `polarisNotFoundError`; any other
status outside 200-299 becomes the unexpected-status error carrying at most
4096 bytes of the body; for a 2xx status the body is decoded into `out` when
`out` is non-nil, with `io.EOF` on an empty body tolerated. The request
construction (URL join, JSON marshalling, header injection) does not affect
this classification and is elided; `decode` abstracts `json.Decoder.Decode`
on a non-empty body. -/
def polarisDo (method path : String) (outcome : httpOutcome) (outPresent : Bool)
    (decode : String → Except String Unit) : Option polarisError :=
  match outcome with
  | .failure msg => some (.transport ( "perform request: " ++ msg))
  | .success resp =>
    if resp.statusCode = 404 then
      some (.notFound method path)
    else if resp.statusCode < 200 ∨ resp.statusCode ≥ 300 then
      some (.unexpectedStatus resp.statusCode (resp.body.take 4096))
    else if outPresent = false then
      none
    else if resp.body = "" then
      none
    else
      match decode resp.body with
      | .ok _ => none
      | .error e => some (.decodeFailure ( "decode response: " ++ e))

/-- A terraform diagnostic added via `resp.Diagnostics.AddError`. -/
structure Diagnostic where
  summary : String
  detail : String
deriving DecidableEq

/-- Errors surfaced by the iceberg-go catalog client that the resource
handlers distinguish: the `catalog.ErrNoSuchTable` and
`catalog.ErrNoSuchNamespace` sentinels, or any other error. -/
inductive catalogError where
  | noSuchTable
  | noSuchNamespace
  | other (msg : String)
deriving DecidableEq

/-- The `Error()` text of the modelled catalog errors (the sentinel texts of
github.com/apache/iceberg-go/catalog). -/
def catalogErrorText : catalogError → String
  | .noSuchTable => "table does not exist"
  | .noSuchNamespace => "namespace does not exist"
  | .other msg => msg

/-- `errors.Is` against one of the two catalog sentinels. -/
def catalogErrorIs (e target : catalogError) : Bool :=
  match e, target with
  | .noSuchTable, .noSuchTable => true
  | .noSuchNamespace, .noSuchNamespace => true
  | _, _ => false

/-- Model of the backend-error handling of `icebergTableResource.Delete`
(resource_table.go): the diagnostics added after `DropTable` returns, given
the drop result. `ErrNoSuchTable` means the table is already gone and is
swallowed; any other error becomes a diagnostic. -/
def tableDeleteDiags (dropResult : Option catalogError) : List Diagnostic :=
  match dropResult with
  | none => []
  | some e =>
    if catalogErrorIs e .noSuchTable then []
    else [ { summary := "failed to drop table", detail := catalogErrorText e } ]

/-- Model of the backend-error handling of `icebergNamespaceResource.Delete`
(resource_namespace.go): `ErrNoSuchNamespace` is swallowed; any other error
becomes a diagnostic. -/
def namespaceDeleteDiags (dropResult : Option catalogError) : List Diagnostic :=
  match dropResult with
  | none => []
  | some e =>
    if catalogErrorIs e .noSuchNamespace then []
    else [ { summary := "failed to drop namespace", detail := catalogErrorText e } ]

/-- Model of the backend-error handling of `polarisPrincipalResource.Delete`
(resource_polaris_principal.go): a polaris not-found error is swallowed; any
other error becomes a diagnostic. -/
def polarisPrincipalDeleteDiags (deleteResult : Option polarisError) : List Diagnostic :=
  match deleteResult with
  | none => []
  | some e =>
    if isPolarisNotFoundError e then []
    else [ { summary := "Failed to delete Polaris principal", detail := polarisErrorText e } ]

/-- Model of `polarisPrincipal` (polaris_client.go): the principal object
returned by the Polaris management API, with properties as an association
list. -/
structure polarisPrincipal where
  name : String
  properties : List (String × String)
  entityVersion : Int
  clientID : String
  createTimestamp : Int
  lastUpdateTimestamp : Int

/-- Model of `polarisUpdatePrincipalRequest` (polaris_client.go). -/
structure polarisUpdatePrincipalRequest where
  currentEntityVersion : Int
  properties : List (String × String)

/-- Model of `polarisPrincipalResourceModel` (resource_polaris_principal.go):
the terraform state/plan of the principal resource. -/
structure polarisPrincipalResourceModel where
  id : TFValue String
  name : TFValue String
  properties : TFValue (List (String × String))
  credentialRotationRequired : TFValue Bool
  clientID : TFValue String
  clientSecret : TFValue String
  entityVersion : TFValue Int
deriving DecidableEq

/-- The outcome of `polarisPrincipalResource.Update`: a new state written via
`resp.State.Set`, removal of the resource from state (on a not-found error),
or a diagnostic. -/
inductive principalUpdateOutcome where
  | newState (s : polarisPrincipalResourceModel)
  | removedFromState
  | failed (d : Diagnostic)
deriving DecidableEq

/-- The properties map sent by `Update`: the properties of the plan when non-null
and known, otherwise the empty map. -/
def planProperties (plan : polarisPrincipalResourceModel) : List (String × String) :=
  match plan.properties with
  | .value ps => ps
  | _ => []

/-- Model of `polarisPrincipalResource.Update`
(resource_polaris_principal.go) after plan and state have been read: the
update request is sent with the entity version of the state and the
properties; on success the plan is written to state with the server
properties and entity version, while id, name, client_id and client_secret
are copied from the prior state. `server` abstracts
`polarisClient.UpdatePrincipal`. -/
def polarisPrincipalUpdate (plan state : polarisPrincipalResourceModel)
    (server : String → polarisUpdatePrincipalRequest → Except polarisError polarisPrincipal) :
    principalUpdateOutcome :=
  let name := state.name.valueString
  let updateReq : polarisUpdatePrincipalRequest :=
    { currentEntityVersion := state.entityVersion.valueInt64, properties := planProperties plan }
  match server name updateReq with
  | .error e =>
    if isPolarisNotFoundError e then .removedFromState
    else .failed { summary := "Failed to update Polaris principal", detail := polarisErrorText e }
  | .ok updated =>
    .newState { plan with
      entityVersion := .value updated.entityVersion,
      properties := if updated.properties.length > 0 then .value updated.properties else .null,
      id := state.id,
      name := state.name,
      clientID := state.clientID,
      clientSecret := state.clientSecret }

/-- The terraform resources of this provider. -/
inductive providerResource where
  | namespaceResource
  | tableResource
  | polarisPrincipalResource
deriving DecidableEq

/-- Modelled from the spec: the current `provider.go` is not among the
sources (the two versions present predate both the `polarisManagementURI`
configuration that `polaris_client.go` reads and the Polaris principal
resource file); the spec states that the provider exposes namespace and
table management plus Polaris principal management as terraform resources,
so the registration list returned by `Resources` is modelled as the
constructors of those three resources. -/
def providerResources : List providerResource :=
  [ .namespaceResource, .tableResource, .polarisPrincipalResource ]

/-- The scalar types of the supported grammar named by the spec: the fourteen
supported primitive types plus decimal and fixed. -/
def isScalarSupported : IcebergType → Bool
  | .listType _ _ _ => false
  | .mapType _ _ _ _ _ => false
  | .structType _ => false
  | _ => true

/-- The types allowed for a struct member in the supported grammar: scalars,
and lists/maps over scalars (their element types are written as single type
strings). -/
def isInnerTypeSupported : IcebergType → Bool
  | .listType _ e _ => isScalarSupported e
  | .mapType _ k _ v _ => isScalarSupported k && isScalarSupported v
  | t => isScalarSupported t

/-- The supported grammar of claim C1 for a field type: scalar types, lists
and maps over scalars, and one level of struct whose members are themselves
inner-supported. -/
def isFieldTypeSupported : IcebergType → Bool
  | .structType fields => fields.all (fun f => isInnerTypeSupported f.ty)
  | t => isInnerTypeSupported t

/-- The fourteen supported primitive type names. -/
def primitiveTypeNames : List String := primitiveTypes.map Prod.fst

/-- The closed type grammar of claim C4, written independently of the
parser: one of the fourteen primitive names, or the decimal string pattern
(digits, a comma, optional whitespace, digits, in `decimal(...)`), or the
fixed string pattern (digits in `fixed(...)`, the pattern of the source
`fixedRegex`). -/
def inTypeGrammar (s : String) : Prop :=
  s ∈ primitiveTypeNames ∨
  (∃ p w q : List Char,
    p ≠ [] ∧ (∀ c ∈ p, c.isDigit) ∧
    (∀ c ∈ w, goSpaceChar c) ∧
    q ≠ [] ∧ (∀ c ∈ q, c.isDigit) ∧
    s.data = "decimal(".data ++ p ++ ',' :: (w ++ (q ++ [ ')' ]))) ∨
  (∃ n : List Char,
    n ≠ [] ∧ (∀ c ∈ n, c.isDigit) ∧
    s.data = "fixed(".data ++ n ++ [ ')' ])

/-- A sample top-level struct field with a single long member, used to
witness the struct-conversion theorems. -/
def sampleStructField : icebergTableSchemaField :=
  { id := .value 1,
    name := .value ( "s" ),
    type := .value ( "struct" ),
    required := .value true,
    doc := .null,
    decimalProperties := .null,
    fixedProperties := .null,
    listProperties := .null,
    mapProperties := .null,
    structProperties := .value { fields := .value [
      { id := .value 2,
        name := .value ( "a" ),
        type := .value ( "long" ),
        required := .value true,
        doc := .null,
        decimalProperties := .null,
        fixedProperties := .null,
        listProperties := .null,
        mapProperties := .null } ] } }

/-- A sample top-level list-of-long field, used to witness the depth-bound
theorem. -/
def sampleListField : icebergTableSchemaField :=
  { id := .value 1,
    name := .value ( "f" ),
    type := .value ( "list" ),
    required := .value true,
    doc := .null,
    decimalProperties := .null,
    fixedProperties := .null,
    listProperties := .value {
      elementID := .value 2,
      elementType := .value ( "long" ),
      elementRequired := .value true },
    mapProperties := .null,
    structProperties := .null }

/-- A sample list field whose element type is a fixed type, as the backward
converter would have to accept it (paren syntax). -/
def sampleListOfFixedField : icebergTableSchemaField :=
  { id := .value 1,
    name := .value ( "f" ),
    type := .value ( "list" ),
    required := .value true,
    doc := .null,
    decimalProperties := .null,
    fixedProperties := .null,
    listProperties := .value {
      elementID := .value 2,
      elementType := .value ( "fixed(16)" ),
      elementRequired := .value true },
    mapProperties := .null,
    structProperties := .null }

/-- A sample plan for the principal update: computed attributes unknown, as
terraform plans them. -/
def samplePlan : polarisPrincipalResourceModel :=
  { id := .unknown,
    name := .value ( "p" ),
    properties := .null,
    credentialRotationRequired := .value false,
    clientID := .unknown,
    clientSecret := .unknown,
    entityVersion := .unknown }

/-- A sample prior state for the principal update. -/
def sampleState : polarisPrincipalResourceModel :=
  { id := .value ( "p" ),
    name := .value ( "p" ),
    properties := .null,
    credentialRotationRequired := .value false,
    clientID := .value ( "cid" ),
    clientSecret := .value ( "sec" ),
    entityVersion := .value 3 }

/-- A sample server response for the principal update. -/
def sampleServer (name : String) (req : polarisUpdatePrincipalRequest) :
    Except polarisError polarisPrincipal :=
  .ok { name := "p",
        properties := [],
        entityVersion := 4,
        clientID := "",
        createTimestamp := 0,
        lastUpdateTimestamp := 0 }

theorem dropExpectedAppend (pre rest : List Char) : dropExpected pre (pre ++ rest) = some rest := by
  induction pre with
  | nil => rfl
  | cons c cs ih => simp [dropExpected, ih]

theorem dropExpectedSome (pre cs rest : List Char) (h : dropExpected pre cs = some rest) :
    cs = pre ++ rest := by
  induction pre generalizing cs with
  | nil => simpa [dropExpected] using h
  | cons c pre1 ih =>
    cases cs with
    | nil => simp [dropExpected] at h
    | cons d ds =>
      by_cases hd : d = c
      · subst hd
        simp only [dropExpected, if_pos rfl] at h
        simpa using ih ds h
      · simp [dropExpected, hd] at h

theorem takeWhileAllAppend (p : Char → Bool) (l r : List Char) (h : ∀ c ∈ l, p c = true) :
    (l ++ r).takeWhile p = l ++ r.takeWhile p := by
  induction l with
  | nil => rfl
  | cons c cs ih =>
    have hc : p c = true := h c (List.mem_cons_self c cs)
    simp [List.takeWhile_cons, hc, ih fun d hd => h d (List.mem_cons_of_mem c hd)]

theorem dropWhileAllAppend (p : Char → Bool) (l r : List Char) (h : ∀ c ∈ l, p c = true) :
    (l ++ r).dropWhile p = r.dropWhile p := by
  induction l with
  | nil => rfl
  | cons c cs ih =>
    have hc : p c = true := h c (List.mem_cons_self c cs)
    simp [List.dropWhile_cons, hc, ih fun d hd => h d (List.mem_cons_of_mem c hd)]

theorem takeWhileNegHead (p : Char → Bool) (c : Char) (l : List Char) (h : p c = false) :
    (c :: l).takeWhile p = [] := by
  simp [List.takeWhile_cons, h]

theorem dropWhileNegHead (p : Char → Bool) (c : Char) (l : List Char) (h : p c = false) :
    (c :: l).dropWhile p = c :: l := by
  simp [List.dropWhile_cons, h]

theorem memTakeWhile (p : Char → Bool) (l : List Char) (c : Char) (h : c ∈ l.takeWhile p) :
    p c = true := by
  induction l with
  | nil => simp [List.takeWhile] at h
  | cons d ds ih =>
    by_cases hd : p d
    · rw [List.takeWhile_cons, if_pos hd] at h
      rcases List.mem_cons.mp h with h1 | h1
      · subst h1; exact hd
      · exact ih h1
    · rw [List.takeWhile_cons, if_neg hd] at h
      simp at h

theorem dropWhileHeadNeg (p : Char → Bool) (l : List Char) (c : Char) (r : List Char)
    (h : l.dropWhile p = c :: r) : p c = false := by
  induction l with
  | nil => simp [List.dropWhile] at h
  | cons d ds ih =>
    by_cases hd : p d
    · rw [List.dropWhile_cons, if_pos hd] at h
      exact ih h
    · rw [List.dropWhile_cons, if_neg hd] at h
      cases h
      simpa using hd

theorem digitNotSpace (c : Char) (h : c.isDigit = true) : goSpaceChar c = false := by
  have h1 : c ≠ ' ' := by rintro rfl; exact absurd h (by decide)
  have h2 : c ≠ '\t' := by rintro rfl; exact absurd h (by decide)
  have h3 : c ≠ '\n' := by rintro rfl; exact absurd h (by decide)
  have h4 : c ≠ '\x0c' := by rintro rfl; exact absurd h (by decide)
  have h5 : c ≠ '\r' := by rintro rfl; exact absurd h (by decide)
  simp [goSpaceChar, h1, h2, h3, h4, h5]


theorem parseDecimalShape (rest p r2 q : List Char)
    (htw : rest.takeWhile Char.isDigit = p)
    (hdw : rest.dropWhile Char.isDigit = ',' :: r2)
    (hp : p ≠ [])
    (htw2 : (r2.dropWhile goSpaceChar).takeWhile Char.isDigit = q)
    (hq : q ≠ [])
    (hdw3 : (r2.dropWhile goSpaceChar).dropWhile Char.isDigit = [ ')' ]) :
    parseDecimal ( "decimal(".data ++ rest) = some (p, q) := by
  simp only [parseDecimal, dropExpectedAppend, htw, hdw]
  simp only [if_neg hp]
  simp [htw2, hdw3, if_neg hq]

theorem parseDecimalComplete (p w q : List Char)
    (hp : p ≠ []) (hpd : ∀ c ∈ p, c.isDigit) (hw : ∀ c ∈ w, goSpaceChar c)
    (hq : q ≠ []) (hqd : ∀ c ∈ q, c.isDigit) :
    parseDecimal ( "decimal(".data ++ p ++ ',' :: (w ++ (q ++ [ ')' ]))) = some (p, q) := by
  obtain ⟨qc, qrest, rfl⟩ : ∃ qc qrest, q = qc :: qrest := by
    cases q with
    | nil => exact absurd rfl hq
    | cons a b => exact ⟨a, b, rfl⟩
  rw [List.append_assoc]
  apply parseDecimalShape
  · rw [takeWhileAllAppend Char.isDigit p _ hpd,
      takeWhileNegHead Char.isDigit ',' _ (by decide), List.append_nil]
  · rw [dropWhileAllAppend Char.isDigit p _ hpd,
      dropWhileNegHead Char.isDigit ',' _ (by decide)]
  · exact hp
  · have hqcd : qc.isDigit = true := hqd qc (List.mem_cons_self qc qrest)
    rw [dropWhileAllAppend goSpaceChar w _ hw, List.cons_append,
      dropWhileNegHead goSpaceChar qc _ (digitNotSpace qc hqcd),
      ← List.cons_append, takeWhileAllAppend Char.isDigit (qc :: qrest) [ ')' ] hqd,
      takeWhileNegHead Char.isDigit ')' [] (by decide), List.append_nil]
  · exact hq
  · have hqcd : qc.isDigit = true := hqd qc (List.mem_cons_self qc qrest)
    rw [dropWhileAllAppend goSpaceChar w _ hw, List.cons_append,
      dropWhileNegHead goSpaceChar qc _ (digitNotSpace qc hqcd),
      ← List.cons_append, dropWhileAllAppend Char.isDigit (qc :: qrest) [ ')' ] hqd,
      dropWhileNegHead Char.isDigit ')' [] (by decide)]

theorem parseDecimalSound (cs p q : List Char) (h : parseDecimal cs = some (p, q)) :
    ∃ w : List Char,
      p ≠ [] ∧ (∀ c ∈ p, c.isDigit) ∧ (∀ c ∈ w, goSpaceChar c) ∧
      q ≠ [] ∧ (∀ c ∈ q, c.isDigit) ∧
      cs = "decimal(".data ++ p ++ ',' :: (w ++ (q ++ [ ')' ])) := by
  simp only [parseDecimal] at h
  rcases hde : dropExpected ( "decimal(".data ) cs with _ | rest
  all_goals rw [hde] at h
  · simp at h
  simp only at h
  by_cases hnil : rest.takeWhile Char.isDigit = []
  · rw [if_pos hnil] at h; simp at h
  rw [if_neg hnil] at h
  rcases hr1 : rest.dropWhile Char.isDigit with _ | ⟨c1, r2⟩
  all_goals rw [hr1] at h
  · simp at h
  simp only at h
  by_cases hc1 : c1 = ','
  swap
  · rw [if_neg hc1] at h; simp at h
  rw [if_pos hc1] at h
  subst hc1
  by_cases hnil2 : (r2.dropWhile goSpaceChar).takeWhile Char.isDigit = []
  · rw [if_pos hnil2] at h; simp at h
  rw [if_neg hnil2] at h
  by_cases hr4 : (r2.dropWhile goSpaceChar).dropWhile Char.isDigit = [ ')' ]
  swap
  · rw [if_neg hr4] at h; simp at h
  rw [if_pos hr4] at h
  simp only [Option.some.injEq, Prod.mk.injEq] at h
  obtain ⟨hpEq, hqEq⟩ := h
  refine ⟨r2.takeWhile goSpaceChar, ?_, ?_, ?_, ?_, ?_, ?_⟩
  · rw [← hpEq]; exact hnil
  · intro c hc; rw [← hpEq] at hc; exact memTakeWhile _ _ _ hc
  · intro c hc; exact memTakeWhile _ _ _ hc
  · rw [← hqEq]; exact hnil2
  · intro c hc; rw [← hqEq] at hc; exact memTakeWhile _ _ _ hc
  · have hcs : cs = "decimal(".data ++ rest := dropExpectedSome _ _ _ hde
    have hrest : rest = p ++ ',' :: r2 := by
      rw [← hpEq, ← hr1]
      exact (List.takeWhile_append_dropWhile Char.isDigit rest).symm
    have hr2 : r2 = r2.takeWhile goSpaceChar ++ (q ++ [ ')' ]) := by
      have hr3 : r2.dropWhile goSpaceChar = q ++ [ ')' ] := by
        rw [← hqEq, ← hr4]
        exact (List.takeWhile_append_dropWhile Char.isDigit (r2.dropWhile goSpaceChar)).symm
      rw [← hr3]
      exact (List.takeWhile_append_dropWhile goSpaceChar r2).symm
    rw [hcs, hrest, ← hr2]
    simp

theorem parseFixedComplete (n : List Char) (hn : n ≠ []) (hnd : ∀ c ∈ n, c.isDigit) :
    parseFixed ( "fixed(".data ++ n ++ [ ')' ]) = some n := by
  have htw : (n ++ [ ')' ]).takeWhile Char.isDigit = n := by
    rw [takeWhileAllAppend Char.isDigit n _ hnd,
      takeWhileNegHead Char.isDigit ')' [] (by decide), List.append_nil]
  have hdw : (n ++ [ ')' ]).dropWhile Char.isDigit = [ ')' ] := by
    rw [dropWhileAllAppend Char.isDigit n _ hnd,
      dropWhileNegHead Char.isDigit ')' [] (by decide)]
  rw [List.append_assoc]
  simp only [parseFixed, dropExpectedAppend, htw, hdw]
  simp [if_neg hn]

theorem parseFixedSound (cs n : List Char) (h : parseFixed cs = some n) :
    n ≠ [] ∧ (∀ c ∈ n, c.isDigit) ∧ cs = "fixed(".data ++ n ++ [ ')' ] := by
  simp only [parseFixed] at h
  rcases hde : dropExpected ( "fixed(".data ) cs with _ | rest
  all_goals rw [hde] at h
  · simp at h
  simp only at h
  by_cases hnil : rest.takeWhile Char.isDigit = []
  · rw [if_pos hnil] at h; simp at h
  rw [if_neg hnil] at h
  by_cases hr1 : rest.dropWhile Char.isDigit = [ ')' ]
  swap
  · rw [if_neg hr1] at h; simp at h
  rw [if_pos hr1] at h
  simp only [Option.some.injEq] at h
  refine ⟨?_, ?_, ?_⟩
  · rw [← h]; exact hnil
  · intro c hc; rw [← h] at hc; exact memTakeWhile _ _ _ hc
  · have hcs : cs = "fixed(".data ++ rest := dropExpectedSome _ _ _ hde
    have hrest : rest = n ++ [ ')' ] := by
      rw [← h, ← hr1]
      exact (List.takeWhile_append_dropWhile Char.isDigit rest).symm
    rw [hcs, hrest]
    simp

theorem lookupPrimitiveSome (s : String) (t : IcebergType) (h : lookupPrimitive s.data = some t) :
    s ∈ primitiveTypeNames ∧ typeDepth t = 1 := by
  unfold lookupPrimitive at h
  rcases hf : primitiveTypes.find? (fun nt => decide (nt.fst.data = s.data)) with _ | x
  · rw [hf] at h; simp at h
  rw [hf] at h
  simp only [Option.map, Option.some.injEq] at h
  have hmem : x ∈ primitiveTypes := List.mem_of_find?_eq_some hf
  have hdata : x.fst.data = s.data := by
    have hpred := List.find?_some hf
    simpa using hpred
  have hfst : x.fst = s := String.ext hdata
  constructor
  · rw [← hfst]
    exact List.mem_map.mpr ⟨x, hmem, rfl⟩
  · rw [← h]
    have hAll : ∀ y ∈ primitiveTypes, typeDepth y.snd = 1 := by decide
    exact hAll x hmem

theorem lookupPrimitiveNone (s : String) (h : lookupPrimitive s.data = none) :
    s ∉ primitiveTypeNames := by
  intro hmem
  obtain ⟨x, hx, hfst⟩ := List.mem_map.mp hmem
  unfold lookupPrimitive at h
  rcases hf : primitiveTypes.find? (fun nt => decide (nt.fst.data = s.data)) with _ | y
  · rw [List.find?_eq_none] at hf
    have := hf x hx
    simp only [decide_eq_true_eq] at this
    exact this (by rw [hfst])
  · rw [hf] at h; simp at h

theorem findPrimitiveParen (cs : List Char) (h : '(' ∈ cs) :
    primitiveTypes.find? (fun nt => decide (nt.fst.data = cs)) = none := by
  rw [List.find?_eq_none]
  intro x hx
  have hAll : ∀ y ∈ primitiveTypes, '(' ∉ y.fst.data := by decide
  simp only [decide_eq_true_eq]
  intro hEq
  have hx2 := hAll x hx
  rw [hEq] at hx2
  exact hx2 h

theorem lookupPrimitiveParen (cs : List Char) (h : '(' ∈ cs) : lookupPrimitive cs = none := by
  unfold lookupPrimitive
  rw [findPrimitiveParen cs h]
  rfl

theorem primitiveEvaluation : ∀ x ∈ primitiveTypes, stringToType x.fst = .ok x.snd := by
  intro x hx
  fin_cases hx <;> rfl

theorem stringToTypeDecimalShape (s : String) (p w q : List Char)
    (hp : p ≠ []) (hpd : ∀ c ∈ p, c.isDigit) (hw : ∀ c ∈ w, goSpaceChar c)
    (hq : q ≠ []) (hqd : ∀ c ∈ q, c.isDigit)
    (hs : s.data = "decimal(".data ++ p ++ ',' :: (w ++ (q ++ [ ')' ]))) :
    stringToType s = .ok (.decimalType (goAtoi p) (goAtoi q)) := by
  have hparen : '(' ∈ "decimal(".data ++ p ++ ',' :: (w ++ (q ++ [ ')' ])) := by
    rw [List.append_assoc]
    exact List.mem_append_left _ (by decide)
  have hlp : lookupPrimitive ( "decimal(".data ++ p ++ ',' :: (w ++ (q ++ [ ')' ]))) = none :=
    lookupPrimitiveParen _ hparen
  have hpdres := parseDecimalComplete p w q hp hpd hw hq hqd
  unfold stringToType
  rw [hs, hlp, hpdres]

theorem parseFixedOnDecimalShape (p w q : List Char) :
    parseFixed ( "decimal(".data ++ p ++ ',' :: (w ++ (q ++ [ ')' ]))) = none := rfl

theorem parseDecimalOnFixedShape (n : List Char) :
    parseDecimal ( "fixed(".data ++ n ++ [ ')' ]) = none := rfl

theorem stringToTypeFixedShape (s : String) (n : List Char)
    (hn : n ≠ []) (hnd : ∀ c ∈ n, c.isDigit)
    (hs : s.data = "fixed(".data ++ n ++ [ ')' ]) :
    stringToType s = .ok (.fixedType (goAtoi n)) := by
  have hparen : '(' ∈ "fixed(".data ++ n ++ [ ')' ] := by
    rw [List.append_assoc]
    exact List.mem_append_left _ (by decide)
  have hlp : lookupPrimitive ( "fixed(".data ++ n ++ [ ')' ]) = none :=
    lookupPrimitiveParen _ hparen
  have hfres := parseFixedComplete n hn hnd
  unfold stringToType
  rw [hs, hlp, parseDecimalOnFixedShape, hfres]

theorem goAtoiInRange (cs : List Char) (h : (digitsToNat cs : Int) ≤ maxInt64) :
    goAtoi cs = digitsToNat cs := by
  unfold goAtoi
  rw [if_neg (not_lt.mpr h)]

theorem stringToTypeDepth (s : String) (t : IcebergType) (h : stringToType s = .ok t) :
    typeDepth t = 1 := by
  unfold stringToType at h
  rcases hlp : lookupPrimitive s.data with _ | t0
  all_goals rw [hlp] at h
  · rcases hpd : parseDecimal s.data with _ | pq
    all_goals rw [hpd] at h
    · rcases hf : parseFixed s.data with _ | n
      all_goals rw [hf] at h
      · simp at h
      · simp only [Except.ok.injEq] at h
        subst h
        rfl
    · obtain ⟨p, q⟩ := pq
      simp only [Except.ok.injEq] at h
      subst h
      rfl
  · simp only [Except.ok.injEq] at h
    subst h
    exact (lookupPrimitiveSome s t0 hlp).2

theorem fromInnerDepth (f : icebergTableSchemaInnerField) (t : IcebergType)
    (h : terraformToIcebergTypeFromInner f = .ok t) : typeDepth t ≤ 2 := by
  unfold terraformToIcebergTypeFromInner at h
  by_cases hlist : f.type.valueString = "list"
  · rw [if_pos hlist] at h
    split at h
    · simp at h
    · simp at h
    · split at h
      · simp at h
      · rename_i elemType hst
        simp at h
        subst h
        have hd := stringToTypeDepth _ _ hst
        simp [typeDepth, hd]
  rw [if_neg hlist] at h
  by_cases hmap : f.type.valueString = "map"
  · rw [if_pos hmap] at h
    split at h
    · simp at h
    · simp at h
    · split at h
      · simp at h
      · rename_i keyType hk
        split at h
        · simp at h
        · rename_i valueType hv
          simp at h
          subst h
          have hdk := stringToTypeDepth _ _ hk
          have hdv := stringToTypeDepth _ _ hv
          simp [typeDepth, hdk, hdv]
  rw [if_neg hmap] at h
  by_cases hstruct : f.type.valueString = "struct"
  · rw [if_pos hstruct] at h
    simp at h
  rw [if_neg hstruct] at h
  by_cases hdec : f.type.valueString = "decimal"
  · rw [if_pos hdec] at h
    split at h
    · simp at h
    · simp at h
    · simp at h
      subst h
      simp [typeDepth]
  rw [if_neg hdec] at h
  by_cases hfix : f.type.valueString = "fixed"
  · rw [if_pos hfix] at h
    split at h
    · simp at h
    · simp at h
    · simp at h
      subst h
      simp [typeDepth]
  rw [if_neg hfix] at h
  have hd := stringToTypeDepth _ _ h
  omega

theorem innerFieldsToNestedDepth (l : List icebergTableSchemaInnerField) (ns : List NestedField)
    (h : innerFieldsToNested l = .ok ns) : fieldsDepth ns ≤ 2 := by
  induction l generalizing ns with
  | nil =>
    simp only [innerFieldsToNested, Except.ok.injEq] at h
    subst h
    simp [fieldsDepth]
  | cons f rest ih =>
    unfold innerFieldsToNested at h
    split at h
    · simp at h
    · rename_i t1 hc
      split at h
      · simp at h
      · rename_i ns1 hr
        simp at h
        subst h
        have h1 := fromInnerDepth f t1 hc
        have h2 := ih ns1 hr
        simp only [fieldsDepth]
        exact max_le h1 h2

theorem terraformToIcebergTypeDepth (f : icebergTableSchemaField) (t : IcebergType)
    (h : terraformToIcebergType f = .ok t) : typeDepth t ≤ 3 := by
  unfold terraformToIcebergType at h
  by_cases hlist : f.type.valueString = "list"
  · rw [if_pos hlist] at h
    split at h
    · simp at h
    · simp at h
    · split at h
      · simp at h
      · rename_i elemType hst
        simp at h
        subst h
        have hd := stringToTypeDepth _ _ hst
        simp [typeDepth, hd]
  rw [if_neg hlist] at h
  by_cases hmap : f.type.valueString = "map"
  · rw [if_pos hmap] at h
    split at h
    · simp at h
    · simp at h
    · split at h
      · simp at h
      · rename_i keyType hk
        split at h
        · simp at h
        · rename_i valueType hv
          simp at h
          subst h
          have hdk := stringToTypeDepth _ _ hk
          have hdv := stringToTypeDepth _ _ hv
          simp [typeDepth, hdk, hdv]
  rw [if_neg hmap] at h
  by_cases hstruct : f.type.valueString = "struct"
  · rw [if_pos hstruct] at h
    split at h
    · simp at h
    · simp at h
    · split at h
      · simp at h
      · simp at h
      · split at h
        · simp at h
        · rename_i nestedFields hconv
          simp at h
          subst h
          have hd := innerFieldsToNestedDepth _ _ hconv
          simp only [typeDepth]
          omega
  rw [if_neg hstruct] at h
  by_cases hdec : f.type.valueString = "decimal"
  · rw [if_pos hdec] at h
    split at h
    · simp at h
    · simp at h
    · simp at h
      subst h
      simp [typeDepth]
  rw [if_neg hdec] at h
  by_cases hfix : f.type.valueString = "fixed"
  · rw [if_pos hfix] at h
    split at h
    · simp at h
    · simp at h
    · simp at h
      subst h
      simp [typeDepth]
  rw [if_neg hfix] at h
  have hd := stringToTypeDepth _ _ h
  omega

theorem v3TypeDepth (typeStr : String)
    (lp : TFValue icebergTableSchemaFieldListProperties)
    (mp : TFValue icebergTableSchemaFieldMapProperties)
    (sp : TFValue Unit) (t : IcebergType)
    (h : schemaV3.terraformToIcebergType typeStr lp mp sp = .ok t) : typeDepth t ≤ 2 := by
  unfold schemaV3.terraformToIcebergType at h
  by_cases hlist : typeStr = "list"
  · rw [if_pos hlist] at h
    split at h
    · simp at h
    · simp at h
    · split at h
      · simp at h
      · rename_i elemType hst
        simp at h
        subst h
        have hd := stringToTypeDepth _ _ hst
        simp [typeDepth, hd]
  rw [if_neg hlist] at h
  by_cases hmap : typeStr = "map"
  · rw [if_pos hmap] at h
    split at h
    · simp at h
    · simp at h
    · split at h
      · simp at h
      · rename_i keyType hk
        split at h
        · simp at h
        · rename_i valueType hv
          simp at h
          subst h
          have hdk := stringToTypeDepth _ _ hk
          have hdv := stringToTypeDepth _ _ hv
          simp [typeDepth, hdk, hdv]
  rw [if_neg hmap] at h
  by_cases hstruct : typeStr = "struct"
  · rw [if_pos hstruct] at h
    simp at h
  rw [if_neg hstruct] at h
  have hd := stringToTypeDepth _ _ h
  omega

theorem v3LeafDepth (f : schemaV3.icebergTableSchemaLeafField) (t : IcebergType)
    (h : schemaV3.convertIcebergTableSchemaLeafField f = .ok t) : typeDepth t ≤ 2 := by
  unfold schemaV3.convertIcebergTableSchemaLeafField at h
  by_cases hstruct : f.type.valueString = "struct"
  · rw [if_pos hstruct] at h
    simp at h
  rw [if_neg hstruct] at h
  exact v3TypeDepth _ _ _ _ _ h

theorem v3LeafFieldsDepth (l : List schemaV3.icebergTableSchemaLeafField) (ns : List NestedField)
    (h : schemaV3.leafFieldsToNested l = .ok ns) : fieldsDepth ns ≤ 2 := by
  induction l generalizing ns with
  | nil =>
    simp only [schemaV3.leafFieldsToNested, Except.ok.injEq] at h
    subst h
    simp [fieldsDepth]
  | cons f rest ih =>
    unfold schemaV3.leafFieldsToNested at h
    split at h
    · simp at h
    · rename_i t1 hc
      split at h
      · simp at h
      · rename_i ns1 hr
        simp at h
        subst h
        have h1 := v3LeafDepth f t1 hc
        have h2 := ih ns1 hr
        simp only [fieldsDepth]
        exact max_le h1 h2

theorem v3InnerDepth (f : schemaV3.icebergTableSchemaInnerField) (t : IcebergType)
    (h : schemaV3.convertIcebergTableSchemaInnerField f = .ok t) : typeDepth t ≤ 3 := by
  unfold schemaV3.convertIcebergTableSchemaInnerField at h
  by_cases hstruct : f.type.valueString = "struct"
  · rw [if_pos hstruct] at h
    split at h
    · simp at h
    · simp at h
    · split at h
      · simp at h
      · simp at h
      · split at h
        · simp at h
        · rename_i nestedFields hconv
          simp at h
          subst h
          have hd := v3LeafFieldsDepth _ _ hconv
          simp only [typeDepth]
          omega
  rw [if_neg hstruct] at h
  have hd := v3TypeDepth _ _ _ _ _ h
  omega

theorem v3InnerFieldsDepth (l : List schemaV3.icebergTableSchemaInnerField) (ns : List NestedField)
    (h : schemaV3.innerFieldsToNested l = .ok ns) : fieldsDepth ns ≤ 3 := by
  induction l generalizing ns with
  | nil =>
    simp only [schemaV3.innerFieldsToNested, Except.ok.injEq] at h
    subst h
    simp [fieldsDepth]
  | cons f rest ih =>
    unfold schemaV3.innerFieldsToNested at h
    split at h
    · simp at h
    · rename_i t1 hc
      split at h
      · simp at h
      · rename_i ns1 hr
        simp at h
        subst h
        have h1 := v3InnerDepth f t1 hc
        have h2 := ih ns1 hr
        simp only [fieldsDepth]
        exact max_le h1 h2

theorem v3FieldDepth (f : schemaV3.icebergTableSchemaField) (t : IcebergType)
    (h : schemaV3.convertIcebergTableSchemaField f = .ok t) : typeDepth t ≤ 4 := by
  unfold schemaV3.convertIcebergTableSchemaField at h
  by_cases hstruct : f.type.valueString = "struct"
  · rw [if_pos hstruct] at h
    split at h
    · simp at h
    · simp at h
    · split at h
      · simp at h
      · simp at h
      · split at h
        · simp at h
        · rename_i nestedFields hconv
          simp at h
          subst h
          have hd := v3InnerFieldsDepth _ _ hconv
          simp only [typeDepth]
          omega
  rw [if_neg hstruct] at h
  have hd := v3TypeDepth _ _ _ _ _ h
  omega

theorem forwardInnerNotStruct (nf : NestedField) (f : icebergTableSchemaInnerField)
    (h : icebergToTerraformInnerField nf = .ok f) :
    ∀ flds : List NestedField, nf.ty ≠ .structType flds := by
  intro flds hty
  cases nf with
  | mk i n ty r d =>
    simp only [NestedField.ty] at hty
    subst hty
    simp [icebergToTerraformInnerField] at h

theorem stringToTypeErrorIff (s : String) :
    (∃ e, stringToType s = .error e) ↔ ¬ inTypeGrammar s := by
  constructor
  · rintro ⟨e, he⟩ hg
    unfold stringToType at he
    rcases hlp : lookupPrimitive s.data with _ | t0
    all_goals rw [hlp] at he
    swap
    · simp at he
    rcases hpd : parseDecimal s.data with _ | pq
    all_goals rw [hpd] at he
    swap
    · obtain ⟨p, q⟩ := pq
      simp at he
    rcases hf : parseFixed s.data with _ | n
    all_goals rw [hf] at he
    swap
    · simp at he
    rcases hg with hname | hdec | hfix
    · exact lookupPrimitiveNone s hlp hname
    · obtain ⟨p, w, q, hp, hpd2, hw, hq, hqd2, hs⟩ := hdec
      have hc := parseDecimalComplete p w q hp hpd2 hw hq hqd2
      rw [← hs] at hc
      rw [hc] at hpd
      simp at hpd
    · obtain ⟨n1, hn, hnd, hs⟩ := hfix
      have hc := parseFixedComplete n1 hn hnd
      rw [← hs] at hc
      rw [hc] at hf
      simp at hf
  · intro hng
    unfold stringToType
    rcases hlp : lookupPrimitive s.data with _ | t0
    swap
    · exact absurd (Or.inl (lookupPrimitiveSome s t0 hlp).1) hng
    rcases hpd : parseDecimal s.data with _ | pq
    swap
    · obtain ⟨p, q⟩ := pq
      obtain ⟨w, hp, hpd2, hw, hq, hqd2, hs⟩ := parseDecimalSound _ _ _ hpd
      exact absurd (Or.inr (Or.inl ⟨p, w, q, hp, hpd2, hw, hq, hqd2, hs⟩)) hng
    rcases hf : parseFixed s.data with _ | n
    swap
    · obtain ⟨hn, hnd, hs⟩ := parseFixedSound _ _ hf
      exact absurd (Or.inr (Or.inr ⟨n, hn, hnd, hs⟩)) hng
    exact ⟨ "unsupported type: " ++ s, rfl⟩

theorem innerFieldsToNestedTotal (l : List icebergTableSchemaInnerField)
    (h : ∀ g ∈ l, ∃ t, terraformToIcebergTypeFromInner g = .ok t) :
    ∃ ns, innerFieldsToNested l = .ok ns := by
  induction l with
  | nil => exact ⟨[], rfl⟩
  | cons f rest ih =>
    obtain ⟨t, ht⟩ := h f (List.mem_cons_self f rest)
    obtain ⟨ns, hns⟩ := ih (fun g hg => h g (List.mem_cons_of_mem f hg))
    refine ⟨.mk f.id.valueInt64 f.name.valueString t f.required.valueBool f.doc.valueString :: ns, ?_⟩
    unfold innerFieldsToNested
    rw [ht, hns]

/-- C1: the claimed round trip fails on the code. The type list-of-fixed lies
in the supported grammar and is reachable from the terraform side (third
conjunct, using the paren syntax `fixed(16)` of the source regex), but
rendering it with `icebergToTerraformField` emits the element type string
`fixed[16]` (the iceberg-go rendering), which `terraformToIcebergType`
rejects, so the round trip returns an error instead of the original type. -/
theorem roundTripFixedElementFails :
    isFieldTypeSupported (.listType 2 (.fixedType 16) true) = true ∧
    roundTripField (.mk 1 ( "f" ) (.listType 2 (.fixedType 16) true) true ( "" )) =
      .error ( "unsupported type: fixed[16]" ) ∧
    terraformToIcebergType sampleListOfFixedField = .ok (.listType 2 (.fixedType 16) true) :=
  ⟨rfl, rfl, rfl⟩

/-- C2: the fixed string pattern of the spec, `fixed[n]`, is rejected by
`stringToType`, whose regex is written with parentheses; `fixed(16)` parses
instead, while the iceberg-go rendering of the same type (emitted by the
forward conversion for list/map element types) is `fixed[16]`. -/
theorem stringToTypeFixedBracketFails :
    stringToType ( "fixed[16]" ) = .error ( "unsupported type: fixed[16]" ) ∧
    stringToType ( "fixed(16)" ) = .ok (.fixedType 16) ∧
    typeString (.fixedType 16) = "fixed[16]" :=
  ⟨rfl, rfl, rfl⟩

/-- C3: struct nesting is bounded. A struct member whose type string is
`struct` is rejected by `terraformToIcebergTypeFromInner`; an iceberg struct
member whose type is a struct is rejected by `icebergToTerraformInnerField`;
and a top-level `struct` field whose members all convert successfully (hence
non-struct) is converted successfully by `terraformToIcebergType`. -/
theorem structNestingBounded :
    (∀ f : icebergTableSchemaInnerField, f.type.valueString = "struct" →
      terraformToIcebergTypeFromInner f =
        .error ( "nested structs are not supported in this version" )) ∧
    (∀ (i : Int) (n : String) (flds : List NestedField) (r : Bool) (d : String),
      icebergToTerraformInnerField (.mk i n (.structType flds) r d) =
        .error ( "nested structs are not supported in this version" )) ∧
    (∀ (f : icebergTableSchemaField) (sp : icebergTableSchemaFieldStructProperties)
      (innerList : List icebergTableSchemaInnerField),
      f.type.valueString = "struct" →
      f.structProperties = .value sp →
      sp.fields = .value innerList →
      (∀ g ∈ innerList, ∃ t, terraformToIcebergTypeFromInner g = .ok t) →
      ∃ ts, terraformToIcebergType f = .ok (.structType ts)) := by
  refine ⟨?_, ?_, ?_⟩
  · intro f h
    unfold terraformToIcebergTypeFromInner
    rw [h]
    exact rfl
  · intro i n flds r d
    rfl
  · intro f sp innerList htype hsp hflds hok
    obtain ⟨ns, hns⟩ := innerFieldsToNestedTotal innerList hok
    refine ⟨ns, ?_⟩
    unfold terraformToIcebergType
    rw [htype]
    simp [hsp, hflds, hns]

/-- Witness for C3: a concrete struct field with a single long member
converts successfully. -/
theorem structNestingBoundedWitness :
    ∃ ts, terraformToIcebergType sampleStructField = .ok (.structType ts) :=
  structNestingBounded.2.2 sampleStructField _ _ rfl rfl rfl (by
    intro g hg
    simp only [List.mem_singleton] at hg
    subst hg
    exact ⟨.int64Type, rfl⟩)

/-- C4: the type grammar of `stringToType` is closed: it returns an error
exactly on strings outside the grammar (one of the fourteen primitive names,
the decimal pattern, or the paren fixed pattern of the source regex), and on
every in-grammar string it returns the corresponding iceberg type. -/
theorem stringToTypeClosedGrammar :
    (∀ s : String, (∃ e, stringToType s = .error e) ↔ ¬ inTypeGrammar s) ∧
    (∀ x ∈ primitiveTypes, stringToType x.fst = .ok x.snd) ∧
    (∀ (s : String) (p w q : List Char), p ≠ [] → (∀ c ∈ p, c.isDigit) →
      (∀ c ∈ w, goSpaceChar c) → q ≠ [] → (∀ c ∈ q, c.isDigit) →
      s.data = "decimal(".data ++ p ++ ',' :: (w ++ (q ++ [ ')' ])) →
      stringToType s = .ok (.decimalType (goAtoi p) (goAtoi q))) ∧
    (∀ (s : String) (n : List Char), n ≠ [] → (∀ c ∈ n, c.isDigit) →
      s.data = "fixed(".data ++ n ++ [ ')' ] →
      stringToType s = .ok (.fixedType (goAtoi n))) :=
  ⟨stringToTypeErrorIff, primitiveEvaluation,
    fun s p w q hp hpd hw hq hqd hs => stringToTypeDecimalShape s p w q hp hpd hw hq hqd hs,
    fun s n hn hnd hs => stringToTypeFixedShape s n hn hnd hs⟩

/-- Witness for C4: the decimal pattern with a space after the comma parses
to the decimal type at a concrete input. -/
theorem stringToTypeClosedGrammarWitness :
    stringToType ( "decimal(12, 5)" ) = .ok (.decimalType 12 5) :=
  stringToTypeClosedGrammar.2.2.1 ( "decimal(12, 5)" ) [ '1', '2' ] [ ' ' ] [ '5' ]
    (by decide) (by decide) (by decide) (by decide) (by decide) (by decide)

/-- C5 counterexample: the claim fails as stated, because `stringToType`
discards the range error of `strconv.Atoi`: a precision whose numeric value
exceeds the int64 maximum is clamped to 9223372036854775807 instead of being
returned as written. -/
theorem decimalPrecisionOverflowCounterexample :
    stringToType ( "decimal(99999999999999999999,0)" ) =
      .ok (.decimalType 9223372036854775807 0) ∧
    IcebergType.decimalType 9223372036854775807 0 ≠
      IcebergType.decimalType 99999999999999999999 0 := by
  refine ⟨rfl, ?_⟩
  intro h
  injection h with h1 h2
  exact absurd h1 (by decide)

/-- C5 as amended: for digit strings p and s whose numeric values are at most
the int64 maximum, `stringToType` applied to `decimal(p,s)` — with any amount
of RE2 whitespace after the comma and nowhere else — returns the decimal type
with precision p and scale s. -/
theorem decimalPatternParsesInRange :
    ∀ (s : String) (p w q : List Char), p ≠ [] → (∀ c ∈ p, c.isDigit) →
    (∀ c ∈ w, goSpaceChar c) → q ≠ [] → (∀ c ∈ q, c.isDigit) →
    (digitsToNat p : Int) ≤ maxInt64 → (digitsToNat q : Int) ≤ maxInt64 →
    s.data = "decimal(".data ++ p ++ ',' :: (w ++ (q ++ [ ')' ])) →
    stringToType s = .ok (.decimalType (digitsToNat p) (digitsToNat q)) := by
  intro s p w q hp hpd hw hq hqd hpr hqr hs
  have hres := stringToTypeDecimalShape s p w q hp hpd hw hq hqd hs
  rw [goAtoiInRange p hpr, goAtoiInRange q hqr] at hres
  exact hres

/-- Witness for C5: a concrete in-range decimal pattern parses to the decimal
type with the written precision and scale. -/
theorem decimalPatternParsesInRangeWitness :
    stringToType ( "decimal(10,2)" ) = .ok (.decimalType 10 2) :=
  decimalPatternParsesInRange ( "decimal(10,2)" ) [ '1', '0' ] [] [ '2' ]
    (by decide) (by decide) (by decide) (by decide) (by decide) (by decide) (by decide) (by decide)

/-- C6: the provider exposes namespace management, table management and
Polaris principal management as terraform resources (registration list
modelled from the spec, see `providerResources`). -/
theorem providerExposesThreeResources :
    providerResource.namespaceResource ∈ providerResources ∧
    providerResource.tableResource ∈ providerResources ∧
    providerResource.polarisPrincipalResource ∈ providerResources := by
  refine ⟨?_, ?_, ?_⟩ <;> decide

/-- C7: the schema conversion terminates because its recursion is bounded by
the data model: every type produced by the backward converters has bounded
depth (3 for the current two-level representation, 4 for the part_003
three-level representation, with the leaf level producing depth at most 2
because the leaf field carries no struct properties), and the forward inner
conversion never accepts a struct, so the recursion cannot descend further.
All modelled conversion functions are total Lean functions by construction. -/
theorem conversionDepthBounded :
    (∀ (f : icebergTableSchemaField) (t : IcebergType),
      terraformToIcebergType f = .ok t → typeDepth t ≤ 3) ∧
    (∀ (f : icebergTableSchemaInnerField) (t : IcebergType),
      terraformToIcebergTypeFromInner f = .ok t → typeDepth t ≤ 2) ∧
    (∀ (f : schemaV3.icebergTableSchemaField) (t : IcebergType),
      schemaV3.convertIcebergTableSchemaField f = .ok t → typeDepth t ≤ 4) ∧
    (∀ (f : schemaV3.icebergTableSchemaInnerField) (t : IcebergType),
      schemaV3.convertIcebergTableSchemaInnerField f = .ok t → typeDepth t ≤ 3) ∧
    (∀ (f : schemaV3.icebergTableSchemaLeafField) (t : IcebergType),
      schemaV3.convertIcebergTableSchemaLeafField f = .ok t → typeDepth t ≤ 2) ∧
    (∀ (nf : NestedField) (f : icebergTableSchemaInnerField),
      icebergToTerraformInnerField nf = .ok f →
      ∀ flds : List NestedField, nf.ty ≠ .structType flds) :=
  ⟨terraformToIcebergTypeDepth, fromInnerDepth, v3FieldDepth, v3InnerDepth, v3LeafDepth,
    forwardInnerNotStruct⟩

/-- Witness for C7: the depth bound instantiated at a concrete list field. -/
theorem conversionDepthBoundedWitness :
    typeDepth (.listType 2 .int64Type true) ≤ 3 :=
  conversionDepthBounded.1 sampleListField (.listType 2 .int64Type true) rfl

/-- C8: `polarisClient.do` classifies HTTP response statuses: 404 yields the
polaris not-found error (and is the only status that does); every other
status outside 200-299 yields the unexpected-status error, which is not a
not-found error; a 2xx status yields no status error — nil when `out` is nil
or the body is empty, and at worst a decode failure otherwise. -/
theorem polarisDoStatusClassification :
    ∀ (method path : String) (resp : httpResponse) (outPresent : Bool)
      (decode : String → Except String Unit),
      ((∃ e, polarisDo method path (.success resp) outPresent decode = some e ∧
          isPolarisNotFoundError e = true) ↔ resp.statusCode = 404) ∧
      (resp.statusCode ≠ 404 → (resp.statusCode < 200 ∨ resp.statusCode ≥ 300) →
        polarisDo method path (.success resp) outPresent decode =
          some (.unexpectedStatus resp.statusCode (resp.body.take 4096))) ∧
      (200 ≤ resp.statusCode → resp.statusCode < 300 →
        (outPresent = false → polarisDo method path (.success resp) outPresent decode = none) ∧
        (resp.body = "" → polarisDo method path (.success resp) outPresent decode = none) ∧
        (∀ e, polarisDo method path (.success resp) outPresent decode = some e →
          ∃ msg, e = .decodeFailure msg)) := by
  intro method path resp outPresent decode
  refine ⟨⟨?_, ?_⟩, ?_, ?_⟩
  · rintro ⟨e, he, hnf⟩
    by_contra h404
    unfold polarisDo at he
    dsimp only at he
    rw [if_neg h404] at he
    by_cases hst : resp.statusCode < 200 ∨ resp.statusCode ≥ 300
    · rw [if_pos hst] at he
      simp only [Option.some.injEq] at he
      rw [← he] at hnf
      simp [isPolarisNotFoundError] at hnf
    · rw [if_neg hst] at he
      by_cases hout : outPresent = false
      · rw [if_pos hout] at he
        simp at he
      · rw [if_neg hout] at he
        by_cases hbody : resp.body = ""
        · rw [if_pos hbody] at he
          simp at he
        · rw [if_neg hbody] at he
          rcases hdec : decode resp.body with e1 | u
          all_goals rw [hdec] at he
          · simp only [Option.some.injEq] at he
            rw [← he] at hnf
            simp [isPolarisNotFoundError] at hnf
          · simp at he
  · intro h404
    refine ⟨.notFound method path, ?_, rfl⟩
    unfold polarisDo
    dsimp only
    rw [if_pos h404]
  · intro h404 hst
    unfold polarisDo
    dsimp only
    rw [if_neg h404, if_pos hst]
  · intro h1 h2
    have h404 : ¬ resp.statusCode = 404 := by omega
    have hst : ¬ (resp.statusCode < 200 ∨ resp.statusCode ≥ 300) := by omega
    refine ⟨?_, ?_, ?_⟩
    · intro hout
      unfold polarisDo
      dsimp only
      rw [if_neg h404, if_neg hst, if_pos hout]
    · intro hbody
      unfold polarisDo
      dsimp only
      rw [if_neg h404, if_neg hst]
      by_cases hout : outPresent = false
      · rw [if_pos hout]
      · rw [if_neg hout, if_pos hbody]
    · intro e he
      unfold polarisDo at he
      dsimp only at he
      rw [if_neg h404, if_neg hst] at he
      by_cases hout : outPresent = false
      · rw [if_pos hout] at he
        simp at he
      · rw [if_neg hout] at he
        by_cases hbody : resp.body = ""
        · rw [if_pos hbody] at he
          simp at he
        · rw [if_neg hbody] at he
          rcases hdec : decode resp.body with e1 | u
          all_goals rw [hdec] at he
          · simp only [Option.some.injEq] at he
            exact ⟨_, he.symm⟩
          · simp at he

/-- Witness for C8: a 404 response yields the polaris not-found error. -/
theorem polarisDoStatusClassificationWitness :
    ∃ e, polarisDo ( "GET" ) "/principals/p" (.success { statusCode := 404, body := "" }) true
        (fun _ => .ok ()) = some e ∧ isPolarisNotFoundError e = true :=
  ((polarisDoStatusClassification ( "GET" ) "/principals/p" { statusCode := 404, body := "" } true
    (fun _ => .ok ())).1).mpr rfl

/-- C9: delete is idempotent at the public interface: for each of the three
resources the handler adds no diagnostic when the backend reports the object
as already gone (`ErrNoSuchTable`, `ErrNoSuchNamespace`, or a polaris
not-found error), and reports exactly one diagnostic on any other backend
error. -/
theorem deleteIdempotent :
    (tableDeleteDiags none = [] ∧ tableDeleteDiags (some .noSuchTable) = [] ∧
      (∀ e, catalogErrorIs e .noSuchTable = false →
        tableDeleteDiags (some e) =
          [ { summary := "failed to drop table", detail := catalogErrorText e } ])) ∧
    (namespaceDeleteDiags none = [] ∧ namespaceDeleteDiags (some .noSuchNamespace) = [] ∧
      (∀ e, catalogErrorIs e .noSuchNamespace = false →
        namespaceDeleteDiags (some e) =
          [ { summary := "failed to drop namespace", detail := catalogErrorText e } ])) ∧
    (polarisPrincipalDeleteDiags none = [] ∧
      (∀ m p, polarisPrincipalDeleteDiags (some (.notFound m p)) = []) ∧
      (∀ e, isPolarisNotFoundError e = false →
        polarisPrincipalDeleteDiags (some e) =
          [ { summary := "Failed to delete Polaris principal", detail := polarisErrorText e } ])) := by
  refine ⟨⟨rfl, rfl, ?_⟩, ⟨rfl, rfl, ?_⟩, ⟨rfl, fun m p => rfl, ?_⟩⟩
  · intro e he
    simp [tableDeleteDiags, he]
  · intro e he
    simp [namespaceDeleteDiags, he]
  · intro e he
    simp [polarisPrincipalDeleteDiags, he]

/-- Witness for C9: a generic backend error on table drop yields exactly the
failed-to-drop diagnostic. -/
theorem deleteIdempotentWitness :
    tableDeleteDiags (some (.other ( "boom" ))) =
      [ { summary := "failed to drop table", detail := "boom" } ] :=
  deleteIdempotent.1.2.2 (.other ( "boom" )) rfl

/-- C10: the frame property of the principal update: whenever Update writes a
new state, the id, name, client_id and client_secret attributes equal their
prior-state values (and credential_rotation_required is taken from the plan),
while entity_version and properties are exactly the values the server returns in its
response to the update request built from the entity version of the state and the
properties of the plan. -/
theorem principalUpdateFramePreserved :
    ∀ (plan state : polarisPrincipalResourceModel)
      (server : String → polarisUpdatePrincipalRequest → Except polarisError polarisPrincipal)
      (ns : polarisPrincipalResourceModel),
      polarisPrincipalUpdate plan state server = .newState ns →
      ns.id = state.id ∧ ns.name = state.name ∧
      ns.clientID = state.clientID ∧ ns.clientSecret = state.clientSecret ∧
      ns.credentialRotationRequired = plan.credentialRotationRequired ∧
      ∃ updated, server state.name.valueString
          { currentEntityVersion := state.entityVersion.valueInt64,
            properties := planProperties plan } = .ok updated ∧
        ns.entityVersion = .value updated.entityVersion ∧
        ns.properties =
          (if updated.properties.length > 0 then .value updated.properties else .null) := by
  intro plan state server ns h
  simp only [polarisPrincipalUpdate] at h
  rcases hs : server state.name.valueString
      { currentEntityVersion := state.entityVersion.valueInt64,
        properties := planProperties plan } with e | updated
  all_goals rw [hs] at h
  · dsimp only at h
    by_cases hnf : isPolarisNotFoundError e = true
    · rw [if_pos hnf] at h
      simp at h
    · rw [if_neg hnf] at h
      simp at h
  · dsimp only at h
    simp only [principalUpdateOutcome.newState.injEq] at h
    subst h
    exact ⟨rfl, rfl, rfl, rfl, rfl, updated, rfl, rfl, rfl⟩

/-- Witness for C10: a concrete successful update preserves the prior state
id, name and credentials. -/
theorem principalUpdateFramePreservedWitness :
    (polarisPrincipalUpdate samplePlan sampleState sampleServer =
        .newState { samplePlan with
          entityVersion := .value 4,
          properties := .null,
          id := sampleState.id,
          name := sampleState.name,
          clientID := sampleState.clientID,
          clientSecret := sampleState.clientSecret }) ∧
    ({ samplePlan with
        entityVersion := .value 4,
        properties := .null,
        id := sampleState.id,
        name := sampleState.name,
        clientID := sampleState.clientID,
        clientSecret := sampleState.clientSecret } :
      polarisPrincipalResourceModel).clientSecret = sampleState.clientSecret := by
  refine ⟨rfl, ?_⟩
  exact (principalUpdateFramePreserved samplePlan sampleState sampleServer _ rfl).2.2.2.1
